import Mathlib

/-!
Verification of the Summit talk-summarization pipeline.

This file gives a shallow embedding, in Lean 4, of the cache-key logic,
cache-interaction policy, windowing (offset/limit), duration filtering,
summarizer failure handling, Gemini retry logic, and Ollama call
serialization of the Summit code base (src/summit/core.py,
src/summit/sched.py, src/summit/summarizers.py), together with theorems
settling the specification claims about those parts.

Strings are embedded as `List Char` (Python `str` values over their code
points), machine integers as `Int`/`Nat` (Python integers are unbounded,
so no wrap-around modelling is needed), Python `None`-able values as
`Option`, and calls into external services (YouTube transcript API,
yt-dlp, requests, LLM backends) as explicit outcome parameters of type
`Except`/functions, since their behaviour is outside the repository.
File-system caches are embedded as total functions from file path to
`Option` payload; writing is function update, which matches the
"reader sees either a complete record or none" contract the callers
assume.
-/

namespace Summit

/-! ## Basic string machinery shared by the embeddings -/

/-- Characters accepted by the sanitizing regex `[^A-Za-z0-9._-]` used in
`_summarizer_cache_key_parts` (core.py) and `_safe_filename_from_url`
(sched.py): ASCII letters, digits, dot, underscore, hyphen. -/
def safeChar (c : Char) : Bool :=
  (65 ≤ c.toNat && c.toNat ≤ 90) || (97 ≤ c.toNat && c.toNat ≤ 122) ||
  (48 ≤ c.toNat && c.toNat ≤ 57) || c.toNat == 46 || c.toNat == 95 || c.toNat == 45

/-- `re.sub(r"[^A-Za-z0-9._-]", "_", raw)` acting on one character. -/
def sanitizeChar (c : Char) : Char :=
  if safeChar c then c else '_'

/-- `re.sub(r"[^A-Za-z0-9._-]", "_", raw)` from core.py line 106. -/
def sanitize (s : List Char) : List Char :=
  s.map sanitizeChar

/-- Python `"_".join(parts)`. -/
def joinUnderscore : List (List Char) → List Char
  | [] => []
  | [p] => p
  | p :: q :: rest => p ++ '_' :: joinUnderscore (q :: rest)

/-- Python `" ".join(parts)` (used on transcript segments, core.py line 178). -/
def joinSpace : List (List Char) → List Char
  | [] => []
  | [p] => p
  | p :: q :: rest => p ++ ' ' :: joinSpace (q :: rest)

/-- Decimal digit characters of `n`, most significant first, with explicit
fuel so the recursion is structural; faithful to Python `str(n)` for
natural numbers. -/
def natReprAux : Nat → Nat → List Char
  | 0, _ => []
  | fuel + 1, n =>
    if n < 10 then [Nat.digitChar n]
    else natReprAux fuel (n / 10) ++ [Nat.digitChar (n % 10)]

/-- Python `str(n)` for a natural number `n`. -/
def natRepr (n : Nat) : List Char :=
  natReprAux (n + 1) n

example : natRepr 800 = ['8', '0', '0'] := by decide
example : natRepr 0 = ['0'] := by decide

/-! ## Summarizer identity and the summary cache (core.py 88-139)

`_summarizer_cache_key_parts` reads the summarizer's class name and the
`model` / `summary_length` attributes; `get_summary_cache_path` embeds the
resulting key into the cache file name, and `load_summary_cache` /
`save_summary_cache` read and write that file. -/

/-- The attributes of a summarizer instance that
`_summarizer_cache_key_parts` inspects: `__class__.__name__`,
`getattr(summarizer, "model", None)` and
`getattr(summarizer, "summary_length", None)`. -/
structure SummarizerId where
  clsName : List Char
  model : Option (List Char)
  summaryLength : Option Nat
deriving DecidableEq

/-- The `parts` list of `_summarizer_cache_key_parts` (core.py 98-102):
the class name, then the model if truthy (not `None`, not empty), then
`str(summary_length)` if truthy (not `None`, not `0`). -/
def keyPartsList (s : SummarizerId) : List (List Char) :=
  [s.clsName] ++
    (match s.model with
      | some m => if m = [] then [] else [m]
      | none => []) ++
    (match s.summaryLength with
      | some n => if n = 0 then [] else [natRepr n]
      | none => [])

/-- `_summarizer_cache_key_parts` (core.py 88-107): join the parts with
underscores and replace filename-unsafe characters by underscores. -/
def summarizerCacheKeyParts (s : SummarizerId) : List Char :=
  sanitize (joinUnderscore (keyPartsList s))

/-- `get_summary_cache_path` (core.py 110-115): the summary cache file
name `f"summary_{video_id}_{key}.txt"` (the directory part is common to
all records and is dropped). -/
def summaryCachePath (videoId : List Char) (s : SummarizerId) : List Char :=
  ("summary_").data ++ videoId ++ '_' :: summarizerCacheKeyParts s ++ (".txt").data

/-- The summary cache store: file path to payload, `none` when the file
does not exist. -/
def SummaryCache : Type :=
  List Char → Option (List Char)

/-- `save_summary_cache` (core.py 132-139): write the payload at the
record's path. -/
def saveSummaryCache (st : SummaryCache) (videoId : List Char) (s : SummarizerId)
    (summary : List Char) : SummaryCache :=
  fun p => if p = summaryCachePath videoId s then some summary else st p

/-- `load_summary_cache` (core.py 118-129): read the payload at the
record's path, `none` (cache miss) when absent. -/
def loadSummaryCache (st : SummaryCache) (videoId : List Char) (s : SummarizerId) :
    Option (List Char) :=
  st (summaryCachePath videoId s)

/-! ## Decimal printing facts (for key injectivity) -/

/-- Left-fold decimal parser, the inverse of `natReprAux` on its output. -/
def digitsVal (ds : List Char) : Nat :=
  ds.foldl (fun a c => 10 * a + (c.toNat - 48)) 0

theorem digitsVal_append_digit (xs : List Char) (c : Char) :
    digitsVal (xs ++ [c]) = 10 * digitsVal xs + (c.toNat - 48) := by
  simp [digitsVal, List.foldl_append]

theorem digitChar_toNat {n : Nat} (h : n < 10) :
    (Nat.digitChar n).toNat = 48 + n := by
  interval_cases n <;> decide

theorem natReprAux_val : ∀ fuel n, n < fuel → digitsVal (natReprAux fuel n) = n := by
  intro fuel
  induction fuel with
  | zero => intro n h; omega
  | succ f ih =>
    intro n h
    by_cases h10 : n < 10
    · simp only [natReprAux, if_pos h10, digitsVal, List.foldl_cons, List.foldl_nil]
      rw [digitChar_toNat h10]
      omega
    · have hlt : n / 10 < f := by omega
      simp only [natReprAux, if_neg h10]
      rw [digitsVal_append_digit, ih _ hlt, digitChar_toNat (Nat.mod_lt n (by omega))]
      omega

theorem natRepr_inj {m n : Nat} (h : natRepr m = natRepr n) : m = n := by
  have hm := natReprAux_val (m + 1) m (by omega)
  have hn := natReprAux_val (n + 1) n (by omega)
  simp only [natRepr] at h
  rw [h] at hm
  omega

theorem natReprAux_digit : ∀ fuel n c, c ∈ natReprAux fuel n →
    48 ≤ c.toNat ∧ c.toNat ≤ 57 := by
  intro fuel
  induction fuel with
  | zero => intro n c h; simp [natReprAux] at h
  | succ f ih =>
    intro n c h
    by_cases h10 : n < 10
    · simp only [natReprAux, if_pos h10, List.mem_singleton] at h
      subst h
      rw [digitChar_toNat h10]
      omega
    · simp only [natReprAux, if_neg h10, List.mem_append, List.mem_singleton] at h
      rcases h with h | h
      · exact ih _ _ h
      · subst h
        rw [digitChar_toNat (Nat.mod_lt n (by omega))]
        omega

theorem natRepr_safe {n : Nat} {c : Char} (h : c ∈ natRepr n) :
    safeChar c = true ∧ c ≠ '_' := by
  have hd := natReprAux_digit (n + 1) n c h
  constructor
  · simp only [safeChar, Bool.or_eq_true, Bool.and_eq_true, decide_eq_true_eq, beq_iff_eq]
    omega
  · intro hc
    subst hc
    have h95 : ('_').toNat = 95 := rfl
    omega

/-! ## Splitting underscore-joined keys -/

theorem append_underscore_inj :
    ∀ (m1 m2 r1 r2 : List Char), '_' ∉ m1 → '_' ∉ m2 →
      m1 ++ '_' :: r1 = m2 ++ '_' :: r2 → m1 = m2 ∧ r1 = r2 := by
  intro m1
  induction m1 with
  | nil =>
    intro m2 r1 r2 _ h2 h
    cases m2 with
    | nil => simpa using h
    | cons b bs =>
      simp only [List.nil_append, List.cons_append, List.cons.injEq] at h
      exact absurd (h.1 ▸ List.mem_cons_self b bs) (by simpa [← h.1] using h2)
  | cons a as ih =>
    intro m2 r1 r2 h1 h2 h
    cases m2 with
    | nil =>
      simp only [List.cons_append, List.nil_append, List.cons.injEq] at h
      exact absurd (h.1 ▸ List.mem_cons_self a as) (by simpa [h.1] using h1)
    | cons b bs =>
      simp only [List.cons_append, List.cons.injEq] at h
      have hrec := ih bs r1 r2 (fun hm => h1 (List.mem_cons_of_mem a hm))
        (fun hm => h2 (List.mem_cons_of_mem b hm)) h.2
      exact ⟨by rw [h.1, hrec.1], hrec.2⟩

theorem sanitize_append (xs ys : List Char) :
    sanitize (xs ++ ys) = sanitize xs ++ sanitize ys := by
  simp [sanitize]

theorem sanitize_of_safe {m : List Char} (h : ∀ c ∈ m, safeChar c = true) :
    sanitize m = m := by
  induction m with
  | nil => rfl
  | cons a as ih =>
    have ha : sanitizeChar a = a := by
      simp [sanitizeChar, h a (List.mem_cons_self a as)]
    have has : sanitize as = as := ih (fun c hc => h c (List.mem_cons_of_mem a hc))
    simp only [sanitize, List.map_cons, ha]
    simp only [sanitize] at has
    rw [has]

/-! ## C1: summary-cache identity -/

/-- A model attribute that is present, non-empty, and made of
filename-safe characters other than the underscore joiner. -/
def modelOk : Option (List Char) → Prop
  | none => False
  | some m => m ≠ [] ∧ ∀ c ∈ m, safeChar c = true ∧ c ≠ '_'

/-- A summary-length attribute that is present and non-zero (truthy). -/
def lenOk : Option Nat → Prop
  | none => False
  | some n => n ≠ 0

instance : DecidablePred modelOk := by
  intro o
  cases o with
  | none => exact .isFalse (fun h => h)
  | some m => exact inferInstanceAs (Decidable (_ ∧ _))

instance : DecidablePred lenOk := by
  intro o
  cases o with
  | none => exact .isFalse (fun h => h)
  | some n => exact inferInstanceAs (Decidable (_ ≠ _))

theorem summarizerCacheKeyParts_eq (s : SummarizerId) {m : List Char} {n : Nat}
    (hm : s.model = some m) (hmne : m ≠ []) (hn : s.summaryLength = some n)
    (hnne : n ≠ 0) :
    summarizerCacheKeyParts s =
      sanitize s.clsName ++ '_' :: (sanitize m ++ '_' :: sanitize (natRepr n)) := by
  simp only [summarizerCacheKeyParts, keyPartsList, hm, hn, if_neg hmne, if_neg hnne]
  have hj : joinUnderscore ([s.clsName] ++ [m] ++ [natRepr n]) =
      s.clsName ++ '_' :: (m ++ '_' :: natRepr n) := by
    simp [joinUnderscore]
  rw [hj]
  have h1 : s.clsName ++ '_' :: (m ++ '_' :: natRepr n) =
      s.clsName ++ ['_'] ++ (m ++ ['_'] ++ natRepr n) := by simp
  rw [h1, sanitize_append, sanitize_append, sanitize_append, sanitize_append]
  simp [sanitize, sanitizeChar, safeChar]

theorem summarizerKey_inj {s1 s2 : SummarizerId} (hc : s1.clsName = s2.clsName)
    (hm1 : modelOk s1.model) (hm2 : modelOk s2.model)
    (hl1 : lenOk s1.summaryLength) (hl2 : lenOk s2.summaryLength)
    (hk : summarizerCacheKeyParts s1 = summarizerCacheKeyParts s2) :
    s1.model = s2.model ∧ s1.summaryLength = s2.summaryLength := by
  rcases hs1 : s1.model with _ | m1
  · rw [hs1] at hm1; exact absurd hm1 (by simp [modelOk])
  rcases hs2 : s2.model with _ | m2
  · rw [hs2] at hm2; exact absurd hm2 (by simp [modelOk])
  rcases ht1 : s1.summaryLength with _ | n1
  · rw [ht1] at hl1; exact absurd hl1 (by simp [lenOk])
  rcases ht2 : s2.summaryLength with _ | n2
  · rw [ht2] at hl2; exact absurd hl2 (by simp [lenOk])
  rw [hs1] at hm1; rw [hs2] at hm2; rw [ht1] at hl1; rw [ht2] at hl2
  obtain ⟨hm1ne, hm1safe⟩ := hm1
  obtain ⟨hm2ne, hm2safe⟩ := hm2
  rw [summarizerCacheKeyParts_eq s1 hs1 hm1ne ht1 hl1,
    summarizerCacheKeyParts_eq s2 hs2 hm2ne ht2 hl2, hc] at hk
  have hk1 : sanitize s2.clsName ++ ('_' :: (sanitize m1 ++ '_' :: sanitize (natRepr n1))) =
      sanitize s2.clsName ++ ('_' :: (sanitize m2 ++ '_' :: sanitize (natRepr n2))) := hk
  have hk2 : sanitize m1 ++ '_' :: sanitize (natRepr n1) =
      sanitize m2 ++ '_' :: sanitize (natRepr n2) := by
    have := List.append_cancel_left hk1
    simpa using this
  rw [sanitize_of_safe (fun c hcm => (hm1safe c hcm).1),
    sanitize_of_safe (fun c hcm => (hm2safe c hcm).1),
    sanitize_of_safe (fun c hcm => (natRepr_safe hcm).1),
    sanitize_of_safe (fun c hcm => (natRepr_safe hcm).1)] at hk2
  have hsplit := append_underscore_inj m1 m2 (natRepr n1) (natRepr n2)
    (fun hmem => (hm1safe _ hmem).2 rfl) (fun hmem => (hm2safe _ hmem).2 rfl) hk2
  obtain ⟨hmm, hdd⟩ := hsplit
  have hnn := natRepr_inj hdd
  subst hmm
  subst hnn
  constructor <;> simp [hs1, hs2, ht1, ht2]

theorem summaryCachePath_inj {vid : List Char} {s1 s2 : SummarizerId}
    (h : summaryCachePath vid s1 = summaryCachePath vid s2) :
    summarizerCacheKeyParts s1 = summarizerCacheKeyParts s2 := by
  have h1 : (("summary_").data ++ vid ++ ['_']) ++
        (summarizerCacheKeyParts s1 ++ (".txt").data) =
      (("summary_").data ++ vid ++ ['_']) ++
        (summarizerCacheKeyParts s2 ++ (".txt").data) := by
    simp only [summaryCachePath] at h
    simpa [List.append_assoc] using h
  exact List.append_cancel_right (List.append_cancel_left h1)

/-- C1: settled as corrected. A summary saved under an identity is always
read back identically under the same identity (round-trip); and two
identities with the same class whose model strings are present, non-empty
and made of filename-safe non-underscore characters, and whose summary
lengths are present and non-zero, never collide when their model or
length differ: the second identity's read is a cache miss on a store that
only holds the first identity's record. (The unrestricted claim is
refuted by `c1_sanitizer_collision_counterexample`: the filename
sanitizer folds distinct models such as "a/b" and "a_b" onto the same
cache key.) -/
theorem c1_summary_cache_roundtrip_and_identity (st : SummaryCache)
    (vid pay : List Char) (s1 s2 : SummarizerId)
    (hc : s1.clsName = s2.clsName)
    (hm1 : modelOk s1.model) (hm2 : modelOk s2.model)
    (hl1 : lenOk s1.summaryLength) (hl2 : lenOk s2.summaryLength)
    (hne : s1.model ≠ s2.model ∨ s1.summaryLength ≠ s2.summaryLength) :
    loadSummaryCache (saveSummaryCache st vid s1 pay) vid s1 = some pay ∧
    summaryCachePath vid s1 ≠ summaryCachePath vid s2 ∧
    loadSummaryCache (saveSummaryCache (fun _ => none) vid s1 pay) vid s2 = none := by
  have hpath : summaryCachePath vid s1 ≠ summaryCachePath vid s2 := by
    intro hp
    have hkeys := summaryCachePath_inj hp
    have := summarizerKey_inj hc hm1 hm2 hl1 hl2 hkeys
    rcases hne with hne | hne
    · exact hne this.1
    · exact hne this.2
  refine ⟨by simp [loadSummaryCache, saveSummaryCache], hpath, ?_⟩
  simp only [loadSummaryCache, saveSummaryCache]
  rw [if_neg (fun hp => hpath hp.symm)]

/-- C1 witness: two Anthropic-style identities differing only in target
length (800 vs 400, the spec's own scenario) round-trip independently and
miss each other. -/
theorem c1_summary_cache_witness :
    loadSummaryCache
      (saveSummaryCache (fun _ => none) ('v' :: ['1'])
        ⟨("AnthropicSummarizer").data, some (("claude").data), some 800⟩ (('s') :: []))
      ('v' :: ['1'])
      ⟨("AnthropicSummarizer").data, some (("claude").data), some 800⟩ =
      some (('s') :: []) ∧
    loadSummaryCache
      (saveSummaryCache (fun _ => none) ('v' :: ['1'])
        ⟨("AnthropicSummarizer").data, some (("claude").data), some 800⟩ (('s') :: []))
      ('v' :: ['1'])
      ⟨("AnthropicSummarizer").data, some (("claude").data), some 400⟩ = none := by
  have h := c1_summary_cache_roundtrip_and_identity (fun _ => none) ('v' :: ['1'])
    (('s') :: [])
    ⟨("AnthropicSummarizer").data, some (("claude").data), some 800⟩
    ⟨("AnthropicSummarizer").data, some (("claude").data), some 400⟩
    rfl (by decide) (by decide) (by decide) (by decide) (Or.inr (by decide))
  exact ⟨h.1, h.2.2⟩

/-- C1 counterexample to the claim as stated: the models "a/b" and "a_b"
differ, yet the sanitizer maps both identities to the same cache file, so
a summary cached under the first is returned — not a cache miss — when
loaded under the second. -/
theorem c1_sanitizer_collision_counterexample :
    (some (('a') :: ('/') :: ['b']) : Option (List Char)) ≠ some (('a') :: ('_') :: ['b']) ∧
    loadSummaryCache
      (saveSummaryCache (fun _ => none) (('v') :: [])
        ⟨("AnthropicSummarizer").data, some (('a') :: ('/') :: ['b']), some 800⟩
        (('p') :: []))
      (('v') :: [])
      ⟨("AnthropicSummarizer").data, some (('a') :: ('_') :: ['b']), some 800⟩ =
      some (('p') :: []) := by
  constructor
  · decide
  · decide

/-! ## Sched talks: data model and windowing (sched.py)

A scraped talk descriptor as built by `_fetch_talk_detail` (sched.py
148-157): title, sched link, youtube url, description, optional event
type and deck url. -/

structure SchedTalk where
  title : List Char
  schedLink : List Char
  youtubeUrl : List Char
  description : List Char
  eventType : Option (List Char)
  deckUrl : Option (List Char)
deriving DecidableEq

/-- The offset/limit window `process_sched_talks` applies to a cached
talk list (sched.py 303-315): slice off the first `offset` talks when
`offset` is truthy and positive, then truncate to `limit` when `limit`
is not `None`, positive, and smaller than what remains. -/
def selectCachedTalks (talks : List SchedTalk) (offset : Int) (limit : Option Int) :
    List SchedTalk :=
  let t1 := if 0 < offset then talks.drop offset.toNat else talks
  match limit with
  | none => t1
  | some m => if 0 < m ∧ (m : Int) < (t1.length : Int) then t1.take m.toNat else t1

/-- A final talk record of the schedule path without summarization
(sched.py 321-336): `index`, `title`, `summary` (the scraped
description), `sched_link`, and the optional `event_type` / `deck_url`
fields which are attached only when truthy. -/
structure SchedRecord where
  index : Nat
  title : List Char
  summary : List Char
  schedLink : List Char
  eventType : Option (List Char)
  deckUrl : Option (List Char)
deriving DecidableEq

/-- Python `talk.get(key) or ""` followed by `if value:` — the field is
attached only when present and non-empty. -/
def truthyOpt : Option (List Char) → Option (List Char)
  | none => none
  | some s => if s = [] then none else some s

/-- One output entry of the no-summarization branch (sched.py 326-336),
keyed by the talk's YouTube URL. -/
def mkSchedRecord (idx : Nat) (t : SchedTalk) : List Char × SchedRecord :=
  (t.youtubeUrl,
    { index := idx, title := t.title, summary := t.description,
      schedLink := t.schedLink, eventType := truthyOpt t.eventType,
      deckUrl := truthyOpt t.deckUrl })

/-- The `enumerate(talks, start=1)` output loop of the no-summarization
branch (sched.py 320-337), as an insertion-ordered association list. -/
def buildSchedOutput (start : Nat) : List SchedTalk → List (List Char × SchedRecord)
  | [] => []
  | t :: rest => mkSchedRecord start t :: buildSchedOutput (start + 1) rest

/-- `process_sched_talks` serving from cache with summarization disabled:
window the cached list, then emit one record per remaining talk with
indices enumerated from 1. -/
def schedFromCache (cached : List SchedTalk) (offset : Int) (limit : Option Int) :
    List (List Char × SchedRecord) :=
  buildSchedOutput 1 (selectCachedTalks cached offset limit)

/-! ## Discovery / source-list caches (C3)

`process_playlist` (core.py 270-309) and `process_sched_talks`
(sched.py 275-297) each consult a source-list cache before calling the
external discovery service. The external call is a parameter; the cache
is the record stored under this source URL's key. -/

/-- A playlist entry descriptor as `process_playlist` builds it
(core.py 293-302). -/
structure VideoInfo where
  url : List Char
  title : List Char
  duration : Int
deriving DecidableEq

/-- A raw yt-dlp playlist entry: `entry.get('id')`, `entry.get('title',
'Unknown Title')`, `entry.get('duration', 0)`. The whole entry can be
falsy (`if entry:`), hence the `Option` wrapper at the call site. -/
structure RawEntry where
  id : Option (List Char)
  title : Option (List Char)
  duration : Option Int
deriving DecidableEq

/-- Descriptor construction from yt-dlp entries (core.py 293-302):
falsy entries and entries with a missing or empty id are dropped; the
url is `f"https://www.youtube.com/watch?v={video_id}"`. -/
def buildVideos (entries : List (Option RawEntry)) : List VideoInfo :=
  entries.filterMap fun oe =>
    oe.bind fun e =>
      match e.id with
      | none => none
      | some i =>
        if i = [] then none
        else some
          { url := ("https://www.youtube.com/watch?v=").data ++ i,
            title := e.title.getD (("Unknown Title").data),
            duration := e.duration.getD 0 }

/-- The playlist-discovery stage of `process_playlist` (core.py
270-309): returns the descriptor list (`none` models `return {}`) and
the new state of the playlist cache record. `fetchRes` is the outcome
of the yt-dlp call: an exception, a result without an `entries` key, or
the entry list. -/
def playlistDiscover (cache : Option (List VideoInfo)) (refresh : Bool)
    (fetchRes : Except Unit (Option (List (Option RawEntry)))) :
    Option (List VideoInfo) × Option (List VideoInfo) :=
  let loaded := if refresh then none else cache
  match loaded with
  | some vs => (some vs, cache)
  | none =>
    match fetchRes with
    | .error _ => (none, cache)
    | .ok none => (none, cache)
    | .ok (some entries) =>
      let vs := buildVideos entries
      (some vs, some vs)

/-- The sched-discovery stage of `process_sched_talks` (sched.py
275-297): returns the talks to process, the new state of the sched
cache record, and the `used_cache` flag. `scraped` is the result of
`scrape_sched_talks_async` for this run's offset/limit. The scrape
result is saved only when it is non-empty, refresh was NOT requested,
and the offset is zero. -/
def schedDiscover (cache : Option (List SchedTalk)) (refresh : Bool) (offset : Int)
    (scraped : List SchedTalk) :
    List SchedTalk × Option (List SchedTalk) × Bool :=
  let loaded := if refresh then none else cache
  match loaded with
  | some ts => (ts, cache, true)
  | none =>
    let cache2 := if scraped ≠ [] ∧ refresh = false ∧ offset = 0 then some scraped else cache
    (scraped, cache2, false)

/-! ## Limit handling in the two orchestrators (C10) -/

/-- The limit window of `process_playlist` (core.py 311-317):
`videos[:limit]` only when the limit is not `None` and positive. -/
def applyPlaylistLimit (videos : List VideoInfo) (limit : Option Int) : List VideoInfo :=
  match limit with
  | none => videos
  | some m => if 0 < m then videos.take m.toNat else videos

/-- The scrape-layer limit of `process_sched_talks` (sched.py 288-291):
`fetch_limit` is the limit when positive, else `None`. -/
def fetchLimit : Option Int → Option Int
  | none => none
  | some m => if 0 < m then some m else none

/-! ## Concrete talks used by witnesses and counterexamples -/

def talkA : SchedTalk :=
  { title := ("Talk A").data,
    schedLink := ("https://conf.sched.com/event/a").data,
    youtubeUrl := ("https://www.youtube.com/watch?v=aaa").data,
    description := ("About A").data,
    eventType := none, deckUrl := none }

def talkB : SchedTalk :=
  { title := ("Talk B").data,
    schedLink := ("https://conf.sched.com/event/b").data,
    youtubeUrl := ("https://www.youtube.com/watch?v=bbb").data,
    description := ("About B").data,
    eventType := some (("Keynote").data), deckUrl := none }

/-! ## C2: cached offset/limit windowing -/

theorem take_branch_eq (t1 : List SchedTalk) (m : Int) (hm : 1 ≤ m) :
    (if 0 < m ∧ (m : Int) < (t1.length : Int) then t1.take m.toNat else t1) =
      t1.take m.toNat := by
  by_cases h : 0 < m ∧ (m : Int) < (t1.length : Int)
  · rw [if_pos h]
  · rw [if_neg h]
    have hle : t1.length ≤ m.toNat := by
      rcases not_and_or.mp h with h1 | h1
      · omega
      · push_neg at h1
        omega
    exact (List.take_of_length_le hle).symm

theorem selectCachedTalks_slice (talks : List SchedTalk) (k m : Int)
    (hk : 0 ≤ k) (hm : 1 ≤ m) :
    selectCachedTalks talks k (some m) = (talks.drop k.toNat).take m.toNat := by
  have ht1 : (if 0 < k then talks.drop k.toNat else talks) = talks.drop k.toNat := by
    by_cases h : 0 < k
    · rw [if_pos h]
    · rw [if_neg h]
      have hz : k.toNat = 0 := by omega
      rw [hz, List.drop_zero]
  simp only [selectCachedTalks, ht1]
  exact take_branch_eq _ m hm

/-- C2: settled as corrected. Serving a cached schedule result set with
offset `k ≥ 0` and a POSITIVE limit `m ≥ 1`, the returned mapping is
exactly the cached list sliced `[k : k+m]` in original order, one record
per talk. (The claim's `m ≥ 0` is refuted by
`c2_limit_zero_counterexample`: `limit = 0` is treated as "no limit" and
returns the whole remainder instead of the empty slice.) -/
theorem c2_cached_slice_window (cached : List SchedTalk) (k m : Int)
    (hk : 0 ≤ k) (hm : 1 ≤ m) :
    schedFromCache cached k (some m) =
      buildSchedOutput 1 ((cached.drop k.toNat).take m.toNat) := by
  rw [schedFromCache, selectCachedTalks_slice cached k m hk hm]

/-- C2 witness: three cached talks, offset 1, limit 1. -/
theorem c2_cached_slice_window_witness :
    schedFromCache [talkA, talkB, talkA] 1 (some 1) =
      buildSchedOutput 1 (([talkA, talkB, talkA].drop 1).take 1) :=
  c2_cached_slice_window [talkA, talkB, talkA] 1 1 (by decide) (by decide)

/-- C2 counterexample: with `limit = 0` (allowed by the claim's
`m ≥ 0`), the code returns the whole cached list, not the empty slice
`[0:0]`. -/
theorem c2_limit_zero_counterexample :
    schedFromCache [talkA] 0 (some 0) ≠
      buildSchedOutput 1 (([talkA].drop 0).take 0) := by
  decide

/-! ## C3: cache-refresh read/write policy -/

/-- C3: settled as corrected. A refresh run bypasses the source-list
cache read in both orchestrators, and for the playlist path a successful
fetch still overwrites the cache record; but for the schedule path the
save is guarded by `not refresh_cache`, so a refresh run never persists
its (successful) scrape — the cache record is left untouched
(`c3_sched_refresh_not_saved_counterexample`). -/
theorem c3_refresh_cache_policy :
    (∀ (cache : Option (List VideoInfo)) (entries : List (Option RawEntry)),
      playlistDiscover cache true (.ok (some entries)) =
        (some (buildVideos entries), some (buildVideos entries))) ∧
    (∀ (scache : Option (List SchedTalk)) (off : Int) (scraped : List SchedTalk),
      schedDiscover scache true off scraped = (scraped, scache, false)) := by
  constructor
  · intro cache entries
    rfl
  · intro scache off scraped
    simp [schedDiscover]

/-- C3 counterexample: a schedule refresh run that successfully scrapes
`[talkB]` (non-empty, offset 0) leaves the stale cached record `[talkA]`
in place instead of overwriting it. -/
theorem c3_sched_refresh_not_saved_counterexample :
    schedDiscover (some [talkA]) true 0 [talkB] = ([talkB], some [talkA], false) ∧
    (some [talkA] : Option (List SchedTalk)) ≠ some [talkB] := by
  constructor
  · decide
  · decide

/-! ## C8: record index versus discovery order -/

theorem buildSchedOutput_getElem? (s : Nat) (ts : List SchedTalk) (i : Nat) :
    (buildSchedOutput s ts)[i]? = (ts[i]?).map (mkSchedRecord (s + i)) := by
  induction ts generalizing s i with
  | nil => simp [buildSchedOutput]
  | cons t rest ih =>
    cases i with
    | zero => simp [buildSchedOutput]
    | succ j =>
      simp only [buildSchedOutput, List.getElem?_cons_succ, ih (s + 1) j]
      have : s + 1 + j = s + (j + 1) := by omega
      rw [this]

theorem take_getElem?_some {l : List SchedTalk} {n i : Nat} {t : SchedTalk}
    (h : (l.take n)[i]? = some t) : l[i]? = some t := by
  rw [List.getElem?_take] at h
  by_cases hi : i < n
  · rwa [if_pos hi] at h
  · rw [if_neg hi] at h
    exact absurd h (by simp)

theorem limit_branch_getElem?_some (t1 : List SchedTalk) (m : Int) (i : Nat)
    (t : SchedTalk)
    (h : (if 0 < m ∧ (m : Int) < (t1.length : Int) then t1.take m.toNat else t1)[i]? =
      some t) :
    t1[i]? = some t := by
  by_cases hc : 0 < m ∧ (m : Int) < (t1.length : Int)
  · rw [if_pos hc] at h
    exact take_getElem?_some h
  · rwa [if_neg hc] at h

theorem selectCachedTalks_sub (cached : List SchedTalk) (k : Int) (lim : Option Int)
    (hk : 0 ≤ k) (i : Nat) (t : SchedTalk)
    (ht : (selectCachedTalks cached k lim)[i]? = some t) :
    cached[k.toNat + i]? = some t := by
  have hdrop : ∀ j : Nat, (cached.drop k.toNat)[j]? = some t →
      cached[k.toNat + j]? = some t := by
    intro j hj
    rwa [List.getElem?_drop] at hj
  have ht1 : (if 0 < k then cached.drop k.toNat else cached) = cached.drop k.toNat := by
    by_cases h : 0 < k
    · rw [if_pos h]
    · rw [if_neg h]
      have hz : k.toNat = 0 := by omega
      rw [hz, List.drop_zero]
  refine hdrop i ?_
  cases lim with
  | none =>
    simp only [selectCachedTalks, ht1] at ht
    exact ht
  | some m =>
    simp only [selectCachedTalks, ht1] at ht
    exact limit_branch_getElem?_some _ m i t ht

/-- C8: settled as corrected. Every record the cached schedule path emits
at output position `i` carries `index = i + 1` — the 1-based position in
the post-offset, post-limit window — and originates from the descriptor
at discovery position `k.toNat + i` of the cached (canonical, un-offset)
list. Hence `index` equals the descriptor's discovery-order position
minus the offset: it matches discovery order only when `offset = 0`, and
is NOT stable across cache loads with different offsets
(`c8_offset_renumbering_counterexample`). -/
theorem c8_record_index_is_window_position (cached : List SchedTalk) (k : Int)
    (lim : Option Int) (i : Nat) (hk : 0 ≤ k) (p : List Char × SchedRecord)
    (hp : (schedFromCache cached k lim)[i]? = some p) :
    p.2.index = i + 1 ∧
    ∃ t : SchedTalk, cached[k.toNat + i]? = some t ∧ p = mkSchedRecord (i + 1) t := by
  rw [schedFromCache, buildSchedOutput_getElem?] at hp
  rcases hsel : (selectCachedTalks cached k lim)[i]? with _ | t
  · rw [hsel] at hp
    simp at hp
  · rw [hsel] at hp
    have hpt : p = mkSchedRecord (1 + i) t := by
      simpa using hp.symm
    have hone : 1 + i = i + 1 := by omega
    rw [hone] at hpt
    refine ⟨by rw [hpt]; rfl, t, selectCachedTalks_sub cached k lim hk i t hsel, hpt⟩

/-- C8 witness: two cached talks, offset 1: the single emitted record
has index 1 and originates from discovery position 2. -/
theorem c8_record_index_witness :
    (schedFromCache [talkA, talkB] 1 none)[0]?.map (fun p => p.2.index) = some 1 ∧
    ((schedFromCache [talkA, talkB] 1 none)[0]?.map fun p => p.1) =
      some talkB.youtubeUrl := by
  have h := c8_record_index_is_window_position [talkA, talkB] 1 none 0 (by decide)
    (talkB.youtubeUrl, (mkSchedRecord 1 talkB).2) (by decide)
  constructor
  · rw [show (schedFromCache [talkA, talkB] 1 none)[0]? =
        some (talkB.youtubeUrl, (mkSchedRecord 1 talkB).2) from by decide]
    simpa using h.1
  · decide

/-- C8 counterexample: the talk discovered second (order 2 in the cached
canonical list) is emitted with `index = 2` by an offset-0 cache load but
with `index = 1` by an offset-1 cache load: `index` does not equal the
stable discovery position on offset runs. -/
theorem c8_offset_renumbering_counterexample :
    ((schedFromCache [talkA, talkB] 0 none).map fun p => (p.1, p.2.index)) =
      [(talkA.youtubeUrl, 1), (talkB.youtubeUrl, 2)] ∧
    ((schedFromCache [talkA, talkB] 1 none).map fun p => (p.1, p.2.index)) =
      [(talkB.youtubeUrl, 1)] ∧
    (2 : Nat) ≠ 1 := by
  refine ⟨by decide, by decide, by decide⟩

/-! ## C10: non-positive limits disable truncation -/

/-- C10: confirmed. In both orchestrator entry points a `limit` of 0 or
any negative value behaves exactly like no limit: the playlist window
keeps every video, the cached-schedule window equals the no-limit
window, and the scrape layer is handed no limit at all — descriptors are
never truncated to an empty set. -/
theorem c10_nonpositive_limit_is_no_limit (m : Int) (h : m ≤ 0) :
    (∀ videos : List VideoInfo,
      applyPlaylistLimit videos (some m) = videos ∧
      applyPlaylistLimit videos none = videos) ∧
    (∀ (talks : List SchedTalk) (k : Int),
      selectCachedTalks talks k (some m) = selectCachedTalks talks k none) ∧
    fetchLimit (some m) = none := by
  refine ⟨fun videos => ⟨?_, rfl⟩, fun talks k => ?_, ?_⟩
  · simp [applyPlaylistLimit, not_lt.mpr h]
  · simp only [selectCachedTalks]
    rw [if_neg (fun hc => absurd hc.1 (not_lt.mpr h))]
  · simp [fetchLimit, not_lt.mpr h]

/-- C10 witness at `limit = 0` with a non-empty descriptor list: nothing
is truncated. -/
theorem c10_nonpositive_limit_witness :
    applyPlaylistLimit [⟨("u").data, ("t").data, 300⟩] (some 0) =
      [⟨("u").data, ("t").data, 300⟩] ∧
    selectCachedTalks [talkA] 0 (some 0) = selectCachedTalks [talkA] 0 none := by
  have h := c10_nonpositive_limit_is_no_limit 0 (by decide)
  exact ⟨(h.1 [⟨("u").data, ("t").data, 300⟩]).1, h.2.1 [talkA] 0⟩

/-! ## Playlist pipeline phases (core.py 326-403)

Phase 1 walks the (windowed) video list in order, skips videos whose
duration is positive and below 120 seconds, drops videos whose URL does
not parse to a video id, and fetches subtitles. Phase 2 walks the
prepared items, reusing cached summaries and generating/saving the
rest. The URL-id extraction and the subtitle download are calls to
collaborators (urlparse-based helper, YouTube transcript API) and enter
as function parameters. -/

structure PreparedItem where
  index : Nat
  videoUrl : List Char
  indexedUrl : List Char
  title : List Char
  duration : Int
  videoId : List Char
  subtitles : List Char
deriving DecidableEq

/-- `f"{video_url}&list={playlist_id}&index={idx}"` when the playlist id
is truthy, else the bare video url (core.py 338-342). -/
def mkIndexedUrl (pid : Option (List Char)) (url : List Char) (idx : Nat) : List Char :=
  match pid with
  | none => url
  | some p =>
    if p = [] then url
    else url ++ ("&list=").data ++ p ++ ("&index=").data ++ natRepr idx

/-- Phase 1 of `process_playlist` (core.py 326-371), carrying the
1-based `enumerate` counter. `extractId` models `extract_video_id`
(raising = `none`), `subs` models `download_subtitles`. -/
def phase1 (extractId : List Char → Option (List Char))
    (subs : List Char → Option (List Char)) (pid : Option (List Char)) :
    Nat → List VideoInfo → List PreparedItem
  | _, [] => []
  | idx, v :: rest =>
    if 0 < v.duration ∧ v.duration < 120 then
      phase1 extractId subs pid (idx + 1) rest
    else
      match extractId v.url with
      | none => phase1 extractId subs pid (idx + 1) rest
      | some vid =>
        { index := idx, videoUrl := v.url, indexedUrl := mkIndexedUrl pid v.url idx,
          title := v.title, duration := v.duration, videoId := vid,
          subtitles := (subs vid).getD [] } ::
          phase1 extractId subs pid (idx + 1) rest

structure TalkRecord where
  index : Nat
  title : List Char
  summary : List Char
deriving DecidableEq

/-- The summary chosen for one prepared item in phase 2
(core.py 382-395): the cached summary when enabled and present, else a
fresh summarizer call when subtitles are non-empty, else the empty
string. -/
def summaryFor (useCache : Bool) (sid : SummarizerId)
    (summarize : List Char → List Char → List Char) (st : SummaryCache)
    (it : PreparedItem) : List Char :=
  match (if useCache then loadSummaryCache st it.videoId sid else none) with
  | some s => s
  | none => if it.subtitles = [] then [] else summarize it.subtitles it.title

/-- The summary-cache state after one phase-2 item: unchanged unless a
fresh summary was generated, in which case it is saved
(core.py 388-392). -/
def cacheAfter (useCache : Bool) (sid : SummarizerId)
    (summarize : List Char → List Char → List Char) (st : SummaryCache)
    (it : PreparedItem) : SummaryCache :=
  match (if useCache then loadSummaryCache st it.videoId sid else none) with
  | some _ => st
  | none =>
    if it.subtitles = [] then st
    else saveSummaryCache st it.videoId sid (summarize it.subtitles it.title)

/-- Phase 2 of `process_playlist` (core.py 373-401): one output record
per prepared item, keyed by the item's indexed url, threading the
summary-cache state. -/
def phase2 (useCache : Bool) (sid : SummarizerId)
    (summarize : List Char → List Char → List Char) :
    SummaryCache → List PreparedItem → SummaryCache × List (List Char × TalkRecord)
  | st, [] => (st, [])
  | st, it :: rest =>
    let r := phase2 useCache sid summarize (cacheAfter useCache sid summarize st it) rest
    (r.1,
      (it.indexedUrl,
        { index := it.index, title := it.title,
          summary := summaryFor useCache sid summarize st it }) :: r.2)

/-- The final record mapping of `process_playlist` (phases 1 and 2
composed), as an insertion-ordered association list keyed by indexed
url. -/
def playlistRecords (extractId : List Char → Option (List Char))
    (subs : List Char → Option (List Char)) (pid : Option (List Char))
    (useCache : Bool) (sid : SummarizerId)
    (summarize : List Char → List Char → List Char) (st : SummaryCache)
    (videos : List VideoInfo) : List (List Char × TalkRecord) :=
  (phase2 useCache sid summarize st (phase1 extractId subs pid 1 videos)).2

/-! ## C4: duration filtering -/

theorem phase1_no_short (extractId : List Char → Option (List Char))
    (subs : List Char → Option (List Char)) (pid : Option (List Char)) :
    ∀ (idx : Nat) (videos : List VideoInfo),
      ∀ it ∈ phase1 extractId subs pid idx videos,
        ¬(0 < it.duration ∧ it.duration < 120) := by
  intro idx videos
  induction videos generalizing idx with
  | nil =>
    intro it h
    simp [phase1] at h
  | cons v rest ih =>
    intro it h
    simp only [phase1] at h
    by_cases hd : 0 < v.duration ∧ v.duration < 120
    · rw [if_pos hd] at h
      exact ih _ it h
    · rw [if_neg hd] at h
      cases he : extractId v.url with
      | none =>
        rw [he] at h
        exact ih _ it h
      | some vid =>
        rw [he] at h
        rcases List.mem_cons.mp h with h | h
        · subst h
          simpa using hd
        · exact ih _ it h

theorem phase1_includes (extractId : List Char → Option (List Char))
    (subs : List Char → Option (List Char)) (pid : Option (List Char)) :
    ∀ (idx : Nat) (videos : List VideoInfo) (v : VideoInfo), v ∈ videos →
      ¬(0 < v.duration ∧ v.duration < 120) → ∀ vid, extractId v.url = some vid →
      ∃ it ∈ phase1 extractId subs pid idx videos,
        it.videoUrl = v.url ∧ it.title = v.title ∧ it.duration = v.duration := by
  intro idx videos
  induction videos generalizing idx with
  | nil =>
    intro v hv
    simp at hv
  | cons w rest ih =>
    intro v hv hshort vid hvid
    rcases List.mem_cons.mp hv with hv | hv
    · subst hv
      simp only [phase1, if_neg hshort, hvid]
      exact ⟨_, List.mem_cons_self _ _, rfl, rfl, rfl⟩
    · obtain ⟨it, hmem, hfields⟩ := ih (idx + 1) v hv hshort vid hvid
      refine ⟨it, ?_, hfields⟩
      simp only [phase1]
      by_cases hd : 0 < w.duration ∧ w.duration < 120
      · rwa [if_pos hd]
      · rw [if_neg hd]
        cases he : extractId w.url with
        | none => exact hmem
        | some wid => exact List.mem_cons_of_mem _ hmem

theorem phase2_keys (useCache : Bool) (sid : SummarizerId)
    (summarize : List Char → List Char → List Char) :
    ∀ (st : SummaryCache) (items : List PreparedItem),
      ((phase2 useCache sid summarize st items).2).map Prod.fst =
        items.map PreparedItem.indexedUrl := by
  intro st items
  induction items generalizing st with
  | nil => rfl
  | cons it rest ih =>
    simp only [phase2, List.map_cons]
    rw [ih]

/-- C4: confirmed. In `process_playlist`, (a) no prepared item — hence
no transcript acquisition — has a duration strictly between 0 and 120
seconds; (b) every listed video whose duration is 0 or at least 120 and
whose URL yields a video id produces a prepared item; and (c) the final
record mapping has exactly one record per prepared item (keyed by its
indexed URL), so exclusion from phase 1 is exclusion from the final
mapping and inclusion in phase 1 is inclusion in the final mapping. -/
theorem c4_short_videos_filtered (extractId : List Char → Option (List Char))
    (subs : List Char → Option (List Char)) (pid : Option (List Char))
    (useCache : Bool) (sid : SummarizerId)
    (summarize : List Char → List Char → List Char) (st : SummaryCache)
    (videos : List VideoInfo) (v : VideoInfo) (hv : v ∈ videos) :
    (∀ it ∈ phase1 extractId subs pid 1 videos,
      ¬(0 < it.duration ∧ it.duration < 120)) ∧
    (¬(0 < v.duration ∧ v.duration < 120) → ∀ vid, extractId v.url = some vid →
      ∃ it ∈ phase1 extractId subs pid 1 videos,
        it.videoUrl = v.url ∧ it.title = v.title ∧ it.duration = v.duration) ∧
    ((playlistRecords extractId subs pid useCache sid summarize st videos).map
        Prod.fst =
      (phase1 extractId subs pid 1 videos).map PreparedItem.indexedUrl) :=
  ⟨phase1_no_short extractId subs pid 1 videos,
    fun hshort vid hvid => phase1_includes extractId subs pid 1 videos v hv hshort vid hvid,
    phase2_keys useCache sid summarize st (phase1 extractId subs pid 1 videos)⟩

/-- Concrete inputs for the C4 witness. -/
def vShort : VideoInfo :=
  { url := ("https://www.youtube.com/watch?v=sss").data,
    title := ("Shorts clip").data, duration := 45 }

def vLong : VideoInfo :=
  { url := ("https://www.youtube.com/watch?v=lll").data,
    title := ("Full talk").data, duration := 1800 }

/-- C4 witness: a 45-second video and a 1800-second video; the theorem
applies with every hypothesis discharged at these inputs. -/
theorem c4_short_videos_filtered_witness :
    (∀ it ∈ phase1 (fun u => some (u.drop 31)) (fun _ => none) none 1 [vShort, vLong],
      ¬(0 < it.duration ∧ it.duration < 120)) ∧
    (¬(0 < vLong.duration ∧ vLong.duration < 120) →
      ∀ vid, (fun u : List Char => some (u.drop 31)) vLong.url = some vid →
      ∃ it ∈ phase1 (fun u => some (u.drop 31)) (fun _ => none) none 1 [vShort, vLong],
        it.videoUrl = vLong.url ∧ it.title = vLong.title ∧
          it.duration = vLong.duration) ∧
    ((playlistRecords (fun u => some (u.drop 31)) (fun _ => none) none false
        ⟨("AnthropicSummarizer").data, some (("claude").data), some 800⟩
        (fun _ _ => []) (fun _ => none) [vShort, vLong]).map Prod.fst =
      (phase1 (fun u => some (u.drop 31)) (fun _ => none) none 1
        [vShort, vLong]).map PreparedItem.indexedUrl) :=
  c4_short_videos_filtered (fun u => some (u.drop 31)) (fun _ => none) none false
    ⟨("AnthropicSummarizer").data, some (("claude").data), some 800⟩
    (fun _ _ => []) (fun _ => none) [vShort, vLong] vLong (by decide)

/-! ## Summarizer backends (summarizers.py)

Each backend's `summarize` wraps a single external call in
`try/except`; the call's outcome (returned text or raised exception
message) is a parameter. The Gemini variant retries rate-limit errors
with backoff. -/

def errorSentinel : List Char :=
  ("Summary unavailable due to an error.").data

def rateLimitSentinel : List Char :=
  ("Summary unavailable - rate limit exceeded.").data

def ollamaFormatSentinel : List Char :=
  ("Summary unavailable: unexpected Ollama response format.").data

/-- `AnthropicSummarizer.summarize` (summarizers.py 49-76): return the
backend's text, or the generic sentinel when the call raises. -/
def anthropicSummarize (call : Except (List Char) (List Char)) : List Char :=
  match call with
  | .ok t => t
  | .error _ => errorSentinel

/-- `OpenAISummarizer.summarize` (summarizers.py 100-125): same failure
policy as the Anthropic variant. -/
def openaiSummarize (call : Except (List Char) (List Char)) : List Char :=
  match call with
  | .ok t => t
  | .error _ => errorSentinel

/-- Python `str.strip()` whitespace characters (ASCII subset relevant to
the truthiness test). -/
def pyWhitespace (c : Char) : Bool :=
  c == ' ' || c == '\t' || c == '\n' || c == '\x0b' || c == '\x0c' || c == '\r'

/-- `OllamaSummarizer._summarize_once` (summarizers.py 230-269): on a
raised call, the generic sentinel; on a response whose
`message.content` is absent or not a non-blank string, the
format sentinel; else the content. -/
def ollamaSummarizeOnce (call : Except (List Char) (Option (List Char))) : List Char :=
  match call with
  | .error _ => errorSentinel
  | .ok none => ollamaFormatSentinel
  | .ok (some content) =>
    if content.any (fun c => !pyWhitespace c) then content else ollamaFormatSentinel

/-- Python `needle` is a prefix of `hay`. -/
def strPre : List Char → List Char → Bool
  | [], _ => true
  | _ :: _, [] => false
  | a :: as, b :: bs => a == b && strPre as bs

/-- Python `needle in hay` substring test. -/
def strHas (needle : List Char) : List Char → Bool
  | [] => strPre needle []
  | c :: rest => strPre needle (c :: rest) || strHas needle rest

/-- Python `str.lower()` (ASCII case folding suffices here). -/
def lowerStr (s : List Char) : List Char :=
  s.map Char.toLower

/-- The rate-limit test of `GeminiSummarizer.summarize`
(summarizers.py 177): `"429" in error_str or "quota" in
error_str.lower() or "rate" in error_str.lower()`. -/
def isRateLimitError (es : List Char) : Bool :=
  strHas (("429").data) es || strHas (("quota").data) (lowerStr es) ||
    strHas (("rate").data) (lowerStr es)

def digitB (c : Char) : Bool :=
  48 ≤ c.toNat && c.toNat ≤ 57

/-- Value of the regex match `\d+\.?\d*` anchored at the head of `s`
(as a rational; models Python `float` of the matched text), `none` when
no digit starts here. -/
def numValAt (s : List Char) : Option ℚ :=
  let ip := s.takeWhile digitB
  if ip = [] then none
  else
    let fp := match s.drop ip.length with
      | '.' :: r => r.takeWhile digitB
      | _ => []
    some ((digitsVal ip : ℚ) + (digitsVal fp : ℚ) / ((10 : ℚ) ^ fp.length))

/-- `re.search(r'retry in (\d+\.?\d*)', ...)` (summarizers.py 185): the
value of the first match, scanning left to right. -/
def searchRetryDelay : List Char → Option ℚ
  | [] => none
  | c :: rest =>
    match
      (if strPre (("retry in ").data) (c :: rest) then
        numValAt ((c :: rest).drop (("retry in ").data).length)
      else none) with
    | some q => some q
    | none => searchRetryDelay rest

/-- The delay before the next Gemini retry (summarizers.py 179-189):
exponential backoff `2 * 2 ^ attempt`, overridden by a server-suggested
delay parsed from the lowercased error text when present. -/
def geminiRetryDelay (es : List Char) (attempt : Nat) : ℚ :=
  let base : ℚ := 2 * 2 ^ attempt
  if strHas (("retry in").data) (lowerStr es) then
    match searchRetryDelay (lowerStr es) with
    | some q => q
    | none => base
  else base

def geminiMaxRetries : Nat := 3

/-- The retry loop of `GeminiSummarizer.summarize` (summarizers.py
166-198). `beh` gives each attempt's outcome; the result is the
returned text together with the list of sleeps performed and the number
of backend calls issued. The fuel starts at `max_retries`; the
post-loop rate-limit sentinel is returned only if every iteration
`continue`s, which the `attempt < max_retries - 1` guard prevents. -/
def geminiLoop (beh : Nat → Except (List Char) (List Char)) :
    Nat → Nat → List Char × List ℚ × Nat
  | 0, _ => (rateLimitSentinel, [], 0)
  | fuel + 1, attempt =>
    match beh attempt with
    | .ok t => (t, [], 1)
    | .error es =>
      if isRateLimitError es = true ∧ attempt < geminiMaxRetries - 1 then
        let r := geminiLoop beh fuel (attempt + 1)
        (r.1, geminiRetryDelay es attempt :: r.2.1, r.2.2 + 1)
      else (errorSentinel, [], 1)

/-- `GeminiSummarizer.summarize` (summarizers.py 149-198). -/
def geminiSummarize (beh : Nat → Except (List Char) (List Char)) :
    List Char × List ℚ × Nat :=
  geminiLoop beh geminiMaxRetries 0

/-- Attempt outcomes listed in order, `.ok ""` beyond the list (never
reached in the theorems using it). -/
def behOf (l : List (Except (List Char) (List Char))) (k : Nat) :
    Except (List Char) (List Char) :=
  l.getD k (.ok [])

/-! ## C5: backend failures never propagate -/

theorem geminiLoop_fail (beh : Nat → Except (List Char) (List Char))
    (hall : ∀ k, ∃ es, beh k = .error es) :
    ∀ fuel attempt, (geminiLoop beh fuel attempt).1 = errorSentinel ∨
      (geminiLoop beh fuel attempt).1 = rateLimitSentinel := by
  intro fuel
  induction fuel with
  | zero =>
    intro a
    right
    rfl
  | succ f ih =>
    intro a
    obtain ⟨es, hes⟩ := hall a
    simp only [geminiLoop, hes]
    by_cases hc : isRateLimitError es = true ∧ a < geminiMaxRetries - 1
    · rw [if_pos hc]
      exact ih (a + 1)
    · rw [if_neg hc]
      left
      rfl

theorem phase2_index_title (useCache : Bool) (sid : SummarizerId)
    (summarize : List Char → List Char → List Char) :
    ∀ (st : SummaryCache) (items : List PreparedItem),
      ((phase2 useCache sid summarize st items).2).map (fun p => (p.2.index, p.2.title)) =
        items.map (fun it => (it.index, it.title)) := by
  intro st items
  induction items generalizing st with
  | nil => rfl
  | cons it rest ih =>
    simp only [phase2, List.map_cons]
    rw [ih]

/-- C5: confirmed. Every backend variant converts a raised backend call
into a sentinel string instead of propagating: the Anthropic, OpenAI and
Ollama variants return the generic sentinel on any error; the Gemini
variant, when every attempt raises, returns the generic or the
rate-limit sentinel; and phase 2 emits exactly one record — with the
item's index and title — for every prepared item, whatever the
summarizer returns, so the batch always continues and completes. -/
theorem c5_summarize_failure_policy :
    (∀ e, anthropicSummarize (.error e) = errorSentinel) ∧
    (∀ e, openaiSummarize (.error e) = errorSentinel) ∧
    (∀ e, ollamaSummarizeOnce (.error e) = errorSentinel) ∧
    (∀ beh : Nat → Except (List Char) (List Char), (∀ k, ∃ es, beh k = .error es) →
      (geminiSummarize beh).1 = errorSentinel ∨
        (geminiSummarize beh).1 = rateLimitSentinel) ∧
    (∀ (useCache : Bool) (sid : SummarizerId)
        (summarize : List Char → List Char → List Char) (st : SummaryCache)
        (items : List PreparedItem),
      ((phase2 useCache sid summarize st items).2).map (fun p => (p.2.index, p.2.title)) =
        items.map (fun it => (it.index, it.title))) :=
  ⟨fun _ => rfl, fun _ => rfl, fun _ => rfl,
    fun beh hall => geminiLoop_fail beh hall geminiMaxRetries 0,
    phase2_index_title⟩

/-- C5 witness: a concrete raising backend ("boom") on each variant, and
a Gemini behaviour raising "429" on every attempt. -/
theorem c5_summarize_failure_policy_witness :
    anthropicSummarize (.error (("boom").data)) = errorSentinel ∧
    openaiSummarize (.error (("boom").data)) = errorSentinel ∧
    ollamaSummarizeOnce (.error (("boom").data)) = errorSentinel ∧
    ((geminiSummarize fun _ => .error (("429").data)).1 = errorSentinel ∨
      (geminiSummarize fun _ => .error (("429").data)).1 = rateLimitSentinel) :=
  ⟨c5_summarize_failure_policy.1 (("boom").data),
    c5_summarize_failure_policy.2.1 (("boom").data),
    c5_summarize_failure_policy.2.2.1 (("boom").data),
    c5_summarize_failure_policy.2.2.2.1 (fun _ => .error (("429").data))
      (fun _ => ⟨(("429").data), rfl⟩)⟩

/-! ## C7: Gemini bounded retry with backoff -/

theorem geminiLoop_attempts_le (beh : Nat → Except (List Char) (List Char)) :
    ∀ fuel attempt, (geminiLoop beh fuel attempt).2.2 ≤ fuel := by
  intro fuel
  induction fuel with
  | zero =>
    intro a
    exact Nat.le_refl 0
  | succ f ih =>
    intro a
    rcases hb : beh a with es | t
    case ok =>
      simp only [geminiLoop, hb]
      exact Nat.le_add_left 1 f
    case error =>
      simp only [geminiLoop, hb]
      by_cases hc : isRateLimitError es = true ∧ a < geminiMaxRetries - 1
      · rw [if_pos hc]
        exact Nat.add_le_add_right (ih (a + 1)) 1
      · rw [if_neg hc]
        exact Nat.le_add_left 1 f

/-- C7: confirmed. The Gemini summarizer makes at most 3 backend calls;
a first-attempt error that is not a rate-limit error is not retried and
yields the generic sentinel immediately; three rate-limited attempts
sleep the two backoff delays and end in the sentinel; a rate-limited
attempt followed by success returns the success after one backoff sleep;
a rate-limited attempt followed by a non-rate-limit error stops after the
second call; the backoff delay for attempt `k` is `2 * 2^k` seconds
unless the lowercased error text carries a parsable "retry in" delay,
which overrides it. -/
theorem c7_gemini_retry_policy :
    (∀ beh : Nat → Except (List Char) (List Char),
      (geminiSummarize beh).2.2 ≤ 3) ∧
    (∀ e x1 x2, isRateLimitError e = false →
      geminiSummarize (behOf [.error e, x1, x2]) = (errorSentinel, [], 1)) ∧
    (∀ e0 e1 e2, isRateLimitError e0 = true → isRateLimitError e1 = true →
      geminiSummarize (behOf [.error e0, .error e1, .error e2]) =
        (errorSentinel, [geminiRetryDelay e0 0, geminiRetryDelay e1 1], 3)) ∧
    (∀ e0 t x2, isRateLimitError e0 = true →
      geminiSummarize (behOf [.error e0, .ok t, x2]) =
        (t, [geminiRetryDelay e0 0], 2)) ∧
    (∀ e0 e1 x2, isRateLimitError e0 = true → isRateLimitError e1 = false →
      geminiSummarize (behOf [.error e0, .error e1, x2]) =
        (errorSentinel, [geminiRetryDelay e0 0], 2)) ∧
    (∀ e k, strHas (("retry in").data) (lowerStr e) = false →
      geminiRetryDelay e k = 2 * 2 ^ k) ∧
    (∀ e k q, strHas (("retry in").data) (lowerStr e) = true →
      searchRetryDelay (lowerStr e) = some q → geminiRetryDelay e k = q) := by
  refine ⟨fun beh => geminiLoop_attempts_le beh geminiMaxRetries 0,
    ?_, ?_, ?_, ?_, ?_, ?_⟩
  · intro e x1 x2 hrl
    have hb0 : behOf [.error e, x1, x2] 0 = .error e := rfl
    simp only [geminiSummarize, geminiMaxRetries, geminiLoop, hb0]
    rw [if_neg (fun hc => by rw [hrl] at hc; exact absurd hc.1 (by decide))]
  · intro e0 e1 e2 h0 h1
    have hb0 : behOf [.error e0, .error e1, .error e2] 0 = .error e0 := rfl
    have hb1 : behOf [.error e0, .error e1, .error e2] 1 = .error e1 := rfl
    have hb2 : behOf [.error e0, .error e1, .error e2] 2 = .error e2 := rfl
    simp only [geminiSummarize, geminiMaxRetries, geminiLoop, hb0, hb1, hb2]
    rw [if_pos ⟨h0, by decide⟩, if_pos ⟨h1, by decide⟩,
      if_neg (fun hc => absurd hc.2 (by decide))]
  · intro e0 t x2 h0
    have hb0 : behOf [.error e0, .ok t, x2] 0 = .error e0 := rfl
    have hb1 : behOf [.error e0, .ok t, x2] 1 = .ok t := rfl
    simp only [geminiSummarize, geminiMaxRetries, geminiLoop, hb0, hb1]
    rw [if_pos ⟨h0, by decide⟩]
  · intro e0 e1 x2 h0 h1
    have hb0 : behOf [.error e0, .error e1, x2] 0 = .error e0 := rfl
    have hb1 : behOf [.error e0, .error e1, x2] 1 = .error e1 := rfl
    simp only [geminiSummarize, geminiMaxRetries, geminiLoop, hb0, hb1]
    rw [if_pos ⟨h0, by decide⟩,
      if_neg (fun hc => by rw [h1] at hc; exact absurd hc.1 (by decide))]
  · intro e k h
    simp [geminiRetryDelay, h]
  · intro e k q h hq
    simp [geminiRetryDelay, h, hq]

/-- C7 witness: a bare "429" error on every attempt (no server-suggested
delay) sleeps 2 then 4 seconds and gives up with the sentinel after 3
calls; a non-rate-limit "boom" error stops at once. -/
theorem c7_gemini_retry_policy_witness :
    geminiSummarize
        (behOf [.error (("429").data), .error (("429").data), .error (("429").data)]) =
      (errorSentinel, [2, 4], 3) ∧
    geminiSummarize (behOf [.error (("boom").data), .ok [], .ok []]) =
      (errorSentinel, [], 1) := by
  have h3 := c7_gemini_retry_policy.2.2.1 (("429").data) (("429").data) (("429").data)
    (by decide) (by decide)
  have hb := c7_gemini_retry_policy.2.1 (("boom").data) (.ok []) (.ok []) (by decide)
  have hno : strHas (("retry in").data) (lowerStr (("429").data)) = false := by decide
  have hd0 := c7_gemini_retry_policy.2.2.2.2.2.1 (("429").data) 0 hno
  have hd1 := c7_gemini_retry_policy.2.2.2.2.2.1 (("429").data) 1 hno
  refine ⟨?_, hb⟩
  rw [h3, hd0, hd1]
  norm_num

/-! ## C6: transcript fetcher (core.py 57-85, 151-184) -/

/-- The subtitle cache store: file path to payload. -/
def SubtitleCache : Type :=
  List Char → Option (List Char)

/-- `get_subtitle_cache_path` (core.py 57-61): the file name
`f"subtitles_{video_id}.txt"` (directory part common, dropped). -/
def subtitlePath (videoId : List Char) : List Char :=
  ("subtitles_").data ++ videoId ++ (".txt").data

/-- `save_subtitle_cache` (core.py 78-85). -/
def saveSubtitleCache (st : SubtitleCache) (videoId subs : List Char) : SubtitleCache :=
  fun p => if p = subtitlePath videoId then some subs else st p

/-- `load_subtitle_cache` (core.py 64-75). -/
def loadSubtitleCache (st : SubtitleCache) (videoId : List Char) : Option (List Char) :=
  st (subtitlePath videoId)

/-- `_download_subtitles_sync` (core.py 151-184): serve from cache when
present; otherwise call the transcript API (`fetch` is its outcome:
raised exception or the fetched text segments), join the segments with
single spaces, cache and return them; any exception yields `none`. -/
def downloadSubtitlesSync (st : SubtitleCache) (videoId : List Char)
    (fetch : Except (List Char) (List (List Char))) :
    Option (List Char) × SubtitleCache :=
  match loadSubtitleCache st videoId with
  | some cached => (some cached, st)
  | none =>
    match fetch with
    | .ok segments =>
      let subs := joinSpace segments
      (some subs, saveSubtitleCache st videoId subs)
    | .error _ => (none, st)

/-- C6: confirmed. On a cache miss, a raising transcript fetch returns
`none` (absent) and leaves the cache untouched, never propagating; a
successful fetch returns the text segments joined with single spaces,
writes exactly that payload to the transcript cache record, and the
record is subsequently readable. -/
theorem c6_transcript_fetch_policy (st : SubtitleCache) (vid : List Char)
    (hmiss : loadSubtitleCache st vid = none) :
    (∀ e, downloadSubtitlesSync st vid (.error e) = (none, st)) ∧
    (∀ segments,
      downloadSubtitlesSync st vid (.ok segments) =
        (some (joinSpace segments), saveSubtitleCache st vid (joinSpace segments)) ∧
      loadSubtitleCache (saveSubtitleCache st vid (joinSpace segments)) vid =
        some (joinSpace segments)) := by
  constructor
  · intro e
    simp only [downloadSubtitlesSync, hmiss]
  · intro segments
    constructor
    · simp only [downloadSubtitlesSync, hmiss]
    · simp [loadSubtitleCache, saveSubtitleCache]

/-- C6 witness: an empty cache; a raising fetch yields absent, a fetch
returning the segments "hello" and "world" yields "hello world". -/
theorem c6_transcript_fetch_policy_witness :
    (downloadSubtitlesSync (fun _ => none) (("v1").data) (.error (("boom").data))).1 =
      none ∧
    (downloadSubtitlesSync (fun _ => none) (("v1").data)
        (.ok [("hello").data, ("world").data])).1 =
      some (("hello world").data) := by
  have h := c6_transcript_fetch_policy (fun _ => none) (("v1").data) rfl
  constructor
  · rw [h.1 (("boom").data)]
  · rw [(h.2 [("hello").data, ("world").data]).1]
    decide

/-! ## C9: Ollama call serialization (summarizers.py 204-228)

The constructor computes `_sequential` from the constructor flag and the
`OLLAMA_SEQUENTIAL` environment toggle, and allocates the shared
`asyncio.Lock` exactly when `_sequential` holds; `summarize` wraps its
single backend call in `async with self._lock` when the lock exists.
The event-loop/lock semantics (an acquire suspends while another task
holds the lock) are external to the repository; they are embedded below
as a two-task step relation in which a task may start its backend call
only when the lock is free (when a lock exists), holds the lock while
the call runs, and releases it on completion. -/

/-- `os.environ.get("OLLAMA_SEQUENTIAL", "").lower() in ("1", "true",
"yes")` (summarizers.py 217). -/
def ollamaEnvTruthy (env : List Char) : Bool :=
  lowerStr env == ("1").data || lowerStr env == ("true").data ||
    lowerStr env == ("yes").data

/-- The constructor inputs that decide serialization: the `sequential`
flag and the `OLLAMA_SEQUENTIAL` environment value. -/
structure OllamaConfig where
  sequentialFlag : Bool
  envSequential : List Char

/-- `self._sequential = sequential or env_seq` (summarizers.py 218);
the lock is allocated iff this is true (line 219). -/
def ollamaSequential (c : OllamaConfig) : Bool :=
  c.sequentialFlag || ollamaEnvTruthy c.envSequential

inductive CallPhase
  | idle
  | running
  | done
deriving DecidableEq

/-- Joint state of two concurrent `summarize` invocations on one
instance: the lock holder (task id, `none` when free or when no lock
exists) and each task's phase. -/
structure LockState where
  holder : Option Bool
  task1 : CallPhase
  task2 : CallPhase
deriving DecidableEq

/-- One cooperative step of the two-task system. With `locked = true`
(sequential mode) a task enters its backend call only by acquiring the
free lock and releases it on completion; with `locked = false` entry is
unguarded. -/
inductive OllamaStep (locked : Bool) : LockState → LockState → Prop
  | start1 (h : Option Bool) (t2 : CallPhase) (hl : locked = true → h = none) :
      OllamaStep locked ⟨h, .idle, t2⟩ ⟨if locked then some true else h, .running, t2⟩
  | start2 (h : Option Bool) (t1 : CallPhase) (hl : locked = true → h = none) :
      OllamaStep locked ⟨h, t1, .idle⟩ ⟨if locked then some false else h, t1, .running⟩
  | finish1 (h : Option Bool) (t2 : CallPhase) :
      OllamaStep locked ⟨h, .running, t2⟩ ⟨if locked then none else h, .done, t2⟩
  | finish2 (h : Option Bool) (t1 : CallPhase) :
      OllamaStep locked ⟨h, t1, .running⟩ ⟨if locked then none else h, t1, .done⟩

/-- States reachable from both tasks pending with the lock free. -/
inductive OllamaReach (locked : Bool) : LockState → Prop
  | init : OllamaReach locked ⟨none, .idle, .idle⟩
  | step {s s' : LockState} : OllamaReach locked s → OllamaStep locked s s' →
      OllamaReach locked s'

/-- In sequential mode, a running task holds the lock. -/
def lockedInv (s : LockState) : Prop :=
  (s.task1 = .running → s.holder = some true) ∧
  (s.task2 = .running → s.holder = some false)

theorem ollamaReach_lockedInv {s : LockState} (h : OllamaReach true s) :
    lockedInv s := by
  induction h with
  | init =>
    exact ⟨fun h1 => absurd h1 (by decide), fun h2 => absurd h2 (by decide)⟩
  | step hr hs ih =>
    cases hs with
    | start1 h t2 hl =>
      refine ⟨fun _ => by simp, fun h2 => ?_⟩
      have := ih.2 h2
      rw [hl rfl] at this
      exact absurd this (by simp)
    | start2 h t1 hl =>
      refine ⟨fun h1 => ?_, fun _ => by simp⟩
      have := ih.1 h1
      rw [hl rfl] at this
      exact absurd this (by simp)
    | finish1 h t2 =>
      refine ⟨fun h1 => by simp at h1, fun h2 => ?_⟩
      have hf := ih.2 h2
      have hr1 := ih.1 rfl
      rw [hf] at hr1
      exact absurd hr1 (by simp)
    | finish2 h t1 =>
      refine ⟨fun h1 => ?_, fun h2 => by simp at h2⟩
      have hf := ih.1 h1
      have hr2 := ih.2 rfl
      rw [hf] at hr2
      exact absurd hr2 (by simp)

/-- C9: confirmed. When the configuration turns sequential mode on
(constructor flag or environment toggle), no reachable state of two
concurrent `summarize` invocations has both backend calls running — the
second cannot start until the first completes; when sequential mode is
off (no lock), a reachable state with both calls running exists, so
invocations are not serialized. -/
theorem c9_ollama_serialization (c : OllamaConfig) :
    (ollamaSequential c = true →
      ∀ s : LockState, OllamaReach (ollamaSequential c) s →
        ¬(s.task1 = .running ∧ s.task2 = .running)) ∧
    (ollamaSequential c = false →
      ∃ s : LockState, OllamaReach (ollamaSequential c) s ∧
        s.task1 = .running ∧ s.task2 = .running) ∧
    ollamaSequential c = (c.sequentialFlag || ollamaEnvTruthy c.envSequential) := by
  refine ⟨?_, ?_, rfl⟩
  · intro hseq s hreach hboth
    rw [hseq] at hreach
    have hinv := ollamaReach_lockedInv hreach
    have h1 := hinv.1 hboth.1
    have h2 := hinv.2 hboth.2
    rw [h1] at h2
    exact absurd h2 (by simp)
  · intro hseq
    rw [hseq]
    refine ⟨⟨none, .running, .running⟩, ?_, rfl, rfl⟩
    have s1 : OllamaStep false ⟨none, .idle, .idle⟩ ⟨none, .running, .idle⟩ := by
      have := @OllamaStep.start1 false none .idle (fun hc => nomatch hc)
      simpa using this
    have s2 : OllamaStep false ⟨none, .running, .idle⟩ ⟨none, .running, .running⟩ := by
      have := @OllamaStep.start2 false none .running (fun hc => nomatch hc)
      simpa using this
    exact OllamaReach.step (OllamaReach.step OllamaReach.init s1) s2

/-- C9 witness: with the constructor flag set the mutual-exclusion
property holds; with the flag clear and an empty environment toggle the
overlapping execution exists. -/
theorem c9_ollama_serialization_witness :
    (∀ s : LockState, OllamaReach (ollamaSequential ⟨true, []⟩) s →
      ¬(s.task1 = .running ∧ s.task2 = .running)) ∧
    (∃ s : LockState, OllamaReach (ollamaSequential ⟨false, []⟩) s ∧
      s.task1 = .running ∧ s.task2 = .running) :=
  ⟨(c9_ollama_serialization ⟨true, []⟩).1 rfl,
    (c9_ollama_serialization ⟨false, []⟩).2.1 rfl⟩

end Summit
